import Mathlib

/-!
Shallow embedding of the taunt subsystem of PizzaRat (a Rodent IV fork):
the corpus loader, lazy load-with-fallback, speak gate, rudeness filter,
random selection and the category classifier of `src/taunt.cpp`, together
with the taunt configuration snapshot of `src/character.h`.

Machine integers of the C++ are modelled by `Int` (scores, configuration
knobs) and `Nat` (unsigned tag bitmasks, results of `std::rand()`); the
pseudo-random source is passed in explicitly as the values of the
successive `std::rand()` calls; the file system is a partial map from
file names to lists of lines; emission is modelled by an `Option String`
result (`none` = nothing written to the output channel).
-/

namespace PizzaRat

/-- The taunt categories, from `enum TauntCategory` in taunt.cpp. -/
inductive TauntCategory where
  | general
  | capture
  | userBlunder
  | engineBlunder
  | losing
  | winning
  | crushing
  | advantage
  | balance
  | disadvantage
  | escape
  | gaining
  deriving DecidableEq, Repr

/-- Tag bit `TAG_RUDE = 1 << 0` from taunt.cpp. -/
def TAG_RUDE : Nat := 1

/-- Tag bit `TAG_POLITE = 1 << 1` from taunt.cpp. -/
def TAG_POLITE : Nat := 2

/-- Tag bit `TAG_SELFDEP = 1 << 2` from taunt.cpp. -/
def TAG_SELFDEP : Nat := 4

/-- Tag bit `TAG_STREET = 1 << 3` from taunt.cpp. -/
def TAG_STREET : Nat := 8

/-- `struct TauntEntry { std::string text; unsigned tags; }` from taunt.cpp. -/
structure TauntEntry where
  text : String
  tags : Nat
  deriving DecidableEq, Repr

/-- Modelled from the spec: rodent.h (not under src/) defines the integer
event-trigger constants `TAUNT_CAPTURE`, `TAUNT_WINNING`, `TAUNT_ADVANTAGE`,
`TAUNT_BALANCE`, `TAUNT_DISADVANTAGE`, `TAUNT_LOSING`, `TAUNT_CRUSHING`
consumed by `PrintTaunt` and `ShouldTauntNow`; the spec's EventContext calls
the event type a trigger drawn from a closed category-like vocabulary.  We
model it as one constructor per named constant plus `other` standing for any
integer value distinct from all of them (taunt.cpp compares the raw int only
against these named constants, so all remaining values behave alike). -/
inductive TauntEvent where
  | capture
  | winning
  | advantage
  | balance
  | disadvantage
  | losing
  | crushing
  | other
  deriving DecidableEq, Repr

/-- Modelled from the spec: the configuration collaborator `cGlobals Glob`
(rodent.h, not under src/) exposes the named settings read by taunt.cpp
(`useTaunting`, `tauntFile`, `tauntIntensity`, `tauntRudeness`,
`tauntWhenLosing`) and the score trajectory (`gameValue`, `previousValue`),
plus the per-delta taunt thresholds written by `ApplyCharacterProfile` in
character.cpp (`tauntUserBlunderDelta`, `tauntEngineBlunderDelta`,
`tauntSmallGainMin`, `tauntSmallGainMax`) mirroring `CharacterTaunts` in
character.h. -/
structure Glob where
  useTaunting : Bool
  tauntFile : String
  tauntIntensity : Int
  tauntRudeness : Int
  tauntWhenLosing : Int
  tauntUserBlunderDelta : Int
  tauntEngineBlunderDelta : Int
  tauntSmallGainMin : Int
  tauntSmallGainMax : Int
  gameValue : Int
  previousValue : Int

/-- The whitespace set `" \t\r\n"` of `Trim` in taunt.cpp. -/
def isTauntWs (c : Char) : Bool := c = ' ' || c = '\t' || c = '\r' || c = '\n'

/-- `Trim` on the character list: drop the leading and trailing run of
characters from `" \t\r\n"` (what `find_first_not_of` / `find_last_not_of`
plus `substr` compute in taunt.cpp). -/
def trimChars (cs : List Char) : List Char :=
  ((cs.dropWhile isTauntWs).reverse.dropWhile isTauntWs).reverse

/-- `Trim` from taunt.cpp strips `" \t\r\n"` from both ends. -/
def Trim (s : String) : String := ⟨trimChars s.data⟩

/-- The `section.find(';')` splitting loop of `LoadTauntsFile`, on the
character list: the pieces strictly between the `;` separators, the first
piece being everything before the first `;` and the last everything after
the last one.  Always returns at least one piece. -/
def splitSemi (cs : List Char) : List (List Char) :=
  match cs with
  | [] => [[]]
  | c :: rest =>
    if c = ';' then [] :: splitSemi rest
    else
      match splitSemi rest with
      | [] => [[c]]
      | g :: gs => (c :: g) :: gs

/-- `CategoryFromName` from taunt.cpp: case-sensitive lookup in the closed
category vocabulary, defaulting to `TAUNT_CAT_GENERAL`. -/
def CategoryFromName (name : String) : TauntCategory :=
  if name = "GENERAL" then .general
  else if name = "CAPTURE" then .capture
  else if name = "USER_BLUNDER" then .userBlunder
  else if name = "ENGINE_BLUNDER" then .engineBlunder
  else if name = "LOSING" then .losing
  else if name = "WINNING" then .winning
  else if name = "CRUSHING" then .crushing
  else if name = "ADVANTAGE" then .advantage
  else if name = "BALANCE" then .balance
  else if name = "DISADVANTAGE" then .disadvantage
  else if name = "ESCAPE" then .escape
  else if name = "GAINING" then .gaining
  else .general

/-- The closed category-name vocabulary of `CategoryFromName`. -/
def categoryNames : List String :=
  ["GENERAL", "CAPTURE", "USER_BLUNDER", "ENGINE_BLUNDER", "LOSING",
   "WINNING", "CRUSHING", "ADVANTAGE", "BALANCE", "DISADVANTAGE",
   "ESCAPE", "GAINING"]

/-- `TagFromName` from taunt.cpp: unrecognized tag names contribute no bits. -/
def TagFromName (name : String) : Nat :=
  if name = "RUDE" then TAG_RUDE
  else if name = "POLITE" then TAG_POLITE
  else if name = "SELFDEP" then TAG_SELFDEP
  else if name = "STREET" then TAG_STREET
  else 0

/-- The per-category entry lists `s_taunts[TAUNT_CAT_COUNT]` from taunt.cpp. -/
def TauntIndex : Type := TauntCategory → List TauntEntry

/-- All twelve categories empty (the state after the clearing loop in
`EnsureTauntsLoaded`). -/
def emptyIndex : TauntIndex := fun _ => []

/-- `s_taunts[current].push_back(entry)` from taunt.cpp. -/
def pushTaunt (idx : TauntIndex) (c : TauntCategory) (e : TauntEntry) : TauntIndex :=
  fun c2 => if c2 = c then idx c2 ++ [e] else idx c2

/-- The loop state of `LoadTauntsFile`: the active section (`current`), its
tag set (`currentTags`) and the index built so far. -/
structure LoaderState where
  current : TauntCategory
  currentTags : Nat
  taunts : TauntIndex

/-- The tag-accumulation loop of `LoadTauntsFile`: each `;`-separated piece
after the base name is trimmed and, when non-empty, OR-ed in via
`TagFromName`. -/
def tagsOf (pieces : List (List Char)) : Nat :=
  pieces.foldl
    (fun acc t =>
      let t := trimChars t
      if t.isEmpty then acc else acc ||| TagFromName ⟨t⟩)
    0

/-- The section-header branch of `LoadTauntsFile` (taunt.cpp lines 112-134),
applied to the already-trimmed header line `[ ... ]`: the bracket-stripped
content is trimmed; an empty content leaves the state untouched; otherwise
the part before the first `;` (trimmed) renames the section when non-empty,
and the tag set is rebuilt from the remaining `;`-separated pieces. -/
def applyHeader (st : LoaderState) (line : List Char) : LoaderState :=
  let sec := trimChars (line.drop 1).dropLast
  if sec.isEmpty then st
  else
    match splitSemi sec with
    | [] => st
    | base :: tagPieces =>
      let base := trimChars base
      { st with
        current := if base.isEmpty then st.current else CategoryFromName ⟨base⟩
        currentTags := tagsOf tagPieces }

/-- The body of the `while (std::getline(...))` loop of `LoadTauntsFile`:
trim; skip blank lines; skip `#`/`;` comments; a `[...]` line updates the
section state; anything else becomes an entry of the active section with
the active tag set. -/
def processLine (st : LoaderState) (raw : String) : LoaderState :=
  let line := trimChars raw.data
  if line.isEmpty then st
  else if line.headD ' ' = '#' ∨ line.headD ' ' = ';' then st
  else if line.headD ' ' = '[' ∧ line.getLastD ' ' = ']' then applyHeader st line
  else { st with taunts := pushTaunt st.taunts st.current ⟨⟨line⟩, st.currentTags⟩ }

/-- The initial loop state of `LoadTauntsFile`: section `general`, no tags,
empty index. -/
def loadInit : LoaderState := ⟨.general, 0, emptyIndex⟩

/-- Running the `LoadTauntsFile` loop over a list of lines from `st`. -/
def runLoader (st : LoaderState) (ls : List String) : LoaderState :=
  ls.foldl processLine st

/-- `LoadTauntsFile` on a successfully opened file, as a function of the
file's lines. -/
def LoadTauntsLines (ls : List String) : TauntIndex :=
  (runLoader loadInit ls).taunts

/-- Modelled from the spec: persistence is a thin wrapper that either opens
a named text file and yields its lines, or fails; `none` models
`std::ifstream` failing to open. -/
def FileSystem : Type := String → Option (List String)

/-- `LoadTauntsFile` from taunt.cpp: `none` models the `return false` on a
file that cannot be opened; otherwise the parsed index is produced. -/
def LoadTauntsFile (fs : FileSystem) (fileName : String) : Option TauntIndex :=
  match fs fileName with
  | none => none
  | some ls => some (LoadTauntsLines ls)

/-- The process-wide loader state of taunt.cpp: `s_taunts`,
`s_tauntsLoaded`, `s_loadedConfigFile`. -/
structure TauntState where
  s_taunts : TauntIndex
  s_tauntsLoaded : Bool
  s_loadedConfigFile : String

/-- `EnsureTauntsLoaded` from taunt.cpp, also reporting the list of file
names passed to `LoadTauntsFile`, in order.  If already loaded for the
configured file name, nothing happens.  Otherwise the index is cleared and
rebuilt: the requested name (the configured one, or `"taunts.txt"` when the
configuration is empty) is tried first; on open failure, when the requested
name differs from `"taunts.txt"`, that default is tried once; afterwards
the loaded flag is set and the configured name recorded unconditionally. -/
def EnsureTauntsLoaded (fs : FileSystem) (tauntFile : String) (st : TauntState) :
    TauntState × List String :=
  if st.s_tauntsLoaded = true ∧ st.s_loadedConfigFile = tauntFile then (st, [])
  else
    let requested := if tauntFile.data.isEmpty then "taunts.txt" else tauntFile
    match LoadTauntsFile fs requested with
    | some idx =>
        (⟨idx, true, tauntFile⟩, [requested])
    | none =>
        if requested ≠ "taunts.txt" then
          match LoadTauntsFile fs "taunts.txt" with
          | some idx => (⟨idx, true, tauntFile⟩, [requested, "taunts.txt"])
          | none => (⟨emptyIndex, true, tauntFile⟩, [requested, "taunts.txt"])
        else
          (⟨emptyIndex, true, tauntFile⟩, [requested])

/-- The `losingEvent` test of `ShouldTauntNow`:
`eventType == TAUNT_DISADVANTAGE || eventType == TAUNT_LOSING`. -/
def losingEvent (eventType : TauntEvent) : Bool :=
  eventType = TauntEvent.disadvantage ∨ eventType = TauntEvent.losing

/-- `ShouldTauntNow` from taunt.cpp.  `r1` is the value of the first
`std::rand()` call performed (if any) and `r2` the value of the second. -/
def ShouldTauntNow (g : Glob) (eventType : TauntEvent) (r1 r2 : Nat) : Bool :=
  if g.useTaunting = false then false
  else if g.tauntIntensity ≤ 0 then false
  else if losingEvent eventType = true ∧ g.tauntWhenLosing < 100 then
    if (↑(r1 % 100) : Int) ≥ g.tauntWhenLosing then false
    else if g.tauntIntensity ≥ 100 then true
    else (↑(r2 % 100) : Int) < g.tauntIntensity
  else if g.tauntIntensity ≥ 100 then true
  else (↑(r1 % 100) : Int) < g.tauntIntensity

/-- The `rudeMask = TAG_RUDE | TAG_POLITE` of `PassRudenessFilter`. -/
def rudeMask : Nat := TAG_RUDE ||| TAG_POLITE

/-- `PassRudenessFilter` from taunt.cpp, reading `Glob.tauntRudeness`. -/
def PassRudenessFilter (g : Glob) (e : TauntEntry) : Bool :=
  if e.tags &&& rudeMask = 0 then true
  else if g.tauntRudeness ≤ 33 ∧ e.tags &&& TAG_RUDE ≠ 0 then false
  else if g.tauntRudeness ≥ 67 ∧ e.tags &&& TAG_POLITE ≠ 0 then false
  else true

/-- The candidate-index list built by `PrintRandomTaunt` before selection:
the indices of `v` whose entries pass the rudeness filter. -/
def rudenessCandidates (g : Glob) (v : List TauntEntry) : List Nat :=
  (List.range v.length).filter (fun i => PassRudenessFilter g (v.getD i ⟨"", 0⟩))

/-- `PrintRandomTaunt` from taunt.cpp as a function of the category's entry
list `v` and the `std::rand()` value `r` used for selection: `none` when
the list is empty (nothing written), otherwise the text of the chosen
entry — drawn from the filtered candidates when any survive, else from the
full list. -/
def PrintRandomTaunt (g : Glob) (v : List TauntEntry) (r : Nat) : Option String :=
  if v.isEmpty then none
  else
    let candidates := rudenessCandidates g v
    if candidates.isEmpty = false then
      let idx := candidates.getD (r % candidates.length) 0
      some (v.getD idx ⟨"", 0⟩).text
    else
      some (v.getD (r % v.length) ⟨"", 0⟩).text

/-- The raw-event fallback chain of `PrintTaunt` (taunt.cpp lines 301-316):
each branch calls the per-category print helper of that category. -/
def rawEventCategory (eventType : TauntEvent) : TauntCategory :=
  match eventType with
  | .capture => .capture
  | .winning => .winning
  | .advantage => .advantage
  | .balance => .balance
  | .disadvantage => .disadvantage
  | .losing => .losing
  | .crushing => .crushing
  | .other => .general

/-- The category-resolution logic of `PrintTaunt` (taunt.cpp lines 270-317):
the sentinel previous value 8888 yields `general`; otherwise the score
delta is checked against the hardcoded blunder bounds `200` / `-200` and
the hardcoded open small-gain window `(30, 60)` before falling back to the
raw event's direct category.  Each branch of the source calls the print
helper of exactly the category produced here. -/
def ResolveTauntCategory (g : Glob) (eventType : TauntEvent) : TauntCategory :=
  if g.previousValue = 8888 then .general
  else
    let delta := g.gameValue - g.previousValue
    let isSmallGain := delta > 30 ∧ delta < 60
    if delta > 200 then .userBlunder
    else if delta < -200 then .engineBlunder
    else if isSmallGain ∧ eventType = .balance then .escape
    else if isSmallGain ∧ eventType = .advantage then .gaining
    else rawEventCategory eventType

/-- The delta-based rules of `PrintTaunt` in isolation (taunt.cpp lines
276-317): the classification applied once a genuine previous value exists,
as a function of the score delta and the raw event. -/
def deltaEventCategory (delta : Int) (eventType : TauntEvent) : TauntCategory :=
  if delta > 200 then .userBlunder
  else if delta < -200 then .engineBlunder
  else if (delta > 30 ∧ delta < 60) ∧ eventType = .balance then .escape
  else if (delta > 30 ∧ delta < 60) ∧ eventType = .advantage then .gaining
  else rawEventCategory eventType

/-- The candidate set actually used for selection by `PrintRandomTaunt` on a
category with entry list `v`: the rudeness-filtered indices when any
survive, the full index range otherwise. -/
def selectionPool (g : Glob) (v : List TauntEntry) : List Nat :=
  if (rudenessCandidates g v).isEmpty = false then rudenessCandidates g v
  else List.range v.length

/-- A raw corpus line that `LoadTauntsFile` treats as a section header:
non-blank after trimming, first character `[` and last character `]`
(such a line can be neither blank nor a comment). -/
def isHeaderLine (raw : String) : Bool :=
  let line := trimChars raw.data
  !line.isEmpty && (line.headD ' ' = '[' && line.getLastD ' ' = ']')

/-- A raw corpus line that `LoadTauntsFile` turns into an entry: non-blank
after trimming, not a `#`/`;` comment and not a section header. -/
def isEntryLine (raw : String) : Bool :=
  let line := trimChars raw.data
  !line.isEmpty && (!(line.headD ' ' = '#' || line.headD ' ' = ';')
    && !(line.headD ' ' = '[' && line.getLastD ' ' = ']'))

/-- A configuration with a non-default blunder threshold (100): the score
swing 150 exceeds it, yet the classifier falls through to the raw event's
category because the code compares against the literal 200. -/
def blunderCexGlob : Glob := ⟨true, "", 100, 50, 100, 100, 100, 30, 60, 150, 0⟩

/-- A configuration with a non-default small-gain window (10, 20): the
score swing 15 lies strictly inside it, yet the classifier falls through to
the raw event's category because the code compares against the literals 30
and 60. -/
def smallGainCexGlob : Glob := ⟨true, "", 100, 50, 100, 200, 200, 10, 20, 15, 0⟩

/-! ## Helper lemmas -/

/-- Splitting the rudeness mask: a tag word meets `TAG_RUDE ||| TAG_POLITE`
exactly when it meets one of the two bits. -/
lemma land_rude_mask_eq_zero (t : Nat) :
    t &&& rudeMask = 0 ↔ t &&& TAG_RUDE = 0 ∧ t &&& TAG_POLITE = 0 := by
  have hmask : rudeMask = 3 := by decide
  have h3 : t &&& 3 = t % 4 := by
    have := Nat.and_pow_two_sub_one_eq_mod t 2
    norm_num at this
    exact this
  have h1 : t &&& 1 = t % 2 := Nat.and_one_is_mod t
  have h2 : t &&& 2 = (t.testBit 1).toNat * 2 := by
    have := Nat.and_two_pow t 1
    norm_num at this
    exact this
  have hb : t.testBit 1 = decide (t / 2 % 2 = 1) := by
    have := Nat.testBit_to_div_mod (x := t) (i := 1)
    norm_num at this
    exact this
  rw [hmask, h3]
  show t % 4 = 0 ↔ t &&& 1 = 0 ∧ t &&& 2 = 0
  rw [h1, h2, hb]
  by_cases h : t / 2 % 2 = 1
  · simp [h]
    omega
  · simp [h]
    omega

/-- Once a genuine previous value exists, the category resolution of
`PrintTaunt` is exactly the delta-based classification of the score swing
paired with the raw event. -/
lemma resolveTauntCategory_eq (g : Glob) (e : TauntEvent)
    (hprev : g.previousValue ≠ 8888) :
    ResolveTauntCategory g e = deltaEventCategory (g.gameValue - g.previousValue) e := by
  unfold ResolveTauntCategory deltaEventCategory
  simp only [if_neg hprev]

/-! ## C1: blunder-delta escalation -/

/-- C1 counterexample: with the configured blunder-delta threshold at 100, a
defined previous score and delta = 150 > 100, the classifier does not
resolve to user-blunder for raw event balance — it resolves to balance. -/
theorem blunder_uses_configured_threshold_cex :
    blunderCexGlob.previousValue ≠ 8888
    ∧ blunderCexGlob.gameValue - blunderCexGlob.previousValue
        > blunderCexGlob.tauntUserBlunderDelta
    ∧ ResolveTauntCategory blunderCexGlob .balance = .balance
    ∧ (TauntCategory.balance ≠ TauntCategory.userBlunder) := by
  refine ⟨by decide, by decide, by decide, by decide⟩

/-- C1 (amended): for every event with a defined previous score, the
classifier resolves to user-blunder whenever delta exceeds the fixed
constant 200 and to engine-blunder whenever delta is below -200, regardless
of the raw event type; the configured blunder-delta settings are not
consulted. -/
theorem blunder_escalation_hardcoded (g : Glob) (e : TauntEvent)
    (hprev : g.previousValue ≠ 8888) :
    (g.gameValue - g.previousValue > 200 → ResolveTauntCategory g e = .userBlunder)
    ∧ (g.gameValue - g.previousValue < -200 → ResolveTauntCategory g e = .engineBlunder) := by
  unfold ResolveTauntCategory
  constructor <;> intro hd <;> simp only [if_neg hprev] <;>
    split_ifs <;> first | rfl | omega

/-- C1 witness: the amended theorem at a concrete input. -/
theorem blunder_escalation_hardcoded_witness :
    ResolveTauntCategory ⟨true, "", 100, 50, 100, 200, 200, 30, 60, 250, 0⟩ .balance
        = .userBlunder
    ∧ ResolveTauntCategory ⟨true, "", 100, 50, 100, 200, 200, 30, 60, 0, 250⟩ .balance
        = .engineBlunder :=
  ⟨(blunder_escalation_hardcoded ⟨true, "", 100, 50, 100, 200, 200, 30, 60, 250, 0⟩
      .balance (by decide)).1 (by decide),
   (blunder_escalation_hardcoded ⟨true, "", 100, 50, 100, 200, 200, 30, 60, 0, 250⟩
      .balance (by decide)).2 (by decide)⟩

/-! ## C2: small-gain escalation window -/

/-- C2 counterexample: with the configured small-gain window (10, 20), a
defined previous score, delta = 15 strictly inside the window and not
exceeding either blunder threshold, raw event balance does not resolve to
escape-from-disadvantage — it resolves to balance. -/
theorem small_gain_uses_configured_window_cex :
    smallGainCexGlob.previousValue ≠ 8888
    ∧ smallGainCexGlob.gameValue - smallGainCexGlob.previousValue
        ≤ smallGainCexGlob.tauntUserBlunderDelta
    ∧ -smallGainCexGlob.tauntEngineBlunderDelta
        ≤ smallGainCexGlob.gameValue - smallGainCexGlob.previousValue
    ∧ smallGainCexGlob.tauntSmallGainMin
        < smallGainCexGlob.gameValue - smallGainCexGlob.previousValue
    ∧ smallGainCexGlob.gameValue - smallGainCexGlob.previousValue
        < smallGainCexGlob.tauntSmallGainMax
    ∧ ResolveTauntCategory smallGainCexGlob .balance = .balance
    ∧ (TauntCategory.balance ≠ TauntCategory.escape) := by
  refine ⟨by decide, by decide, by decide, by decide, by decide, by decide, by decide⟩

/-- C2 (amended): for every event with a defined previous score, if delta
lies strictly inside the fixed open window (30, 60) then raw event balance
resolves to escape-from-disadvantage and raw event advantage to
gaining-ground; a delta exactly equal to a window bound (30 or 60) triggers
neither escalation (the raw event's direct category results).  The
configured small-gain window settings are not consulted. -/
theorem small_gain_escalation_hardcoded (g : Glob) (e : TauntEvent)
    (hprev : g.previousValue ≠ 8888) :
    (30 < g.gameValue - g.previousValue → g.gameValue - g.previousValue < 60 →
      ResolveTauntCategory g .balance = .escape
      ∧ ResolveTauntCategory g .advantage = .gaining)
    ∧ (g.gameValue - g.previousValue = 30 ∨ g.gameValue - g.previousValue = 60 →
      ResolveTauntCategory g e = rawEventCategory e) := by
  refine ⟨fun h1 h2 => ⟨?_, ?_⟩, fun hb => ?_⟩
  · rw [resolveTauntCategory_eq g .balance hprev]
    simp [deltaEventCategory, rawEventCategory]
    split_ifs <;> first | rfl | omega
  · rw [resolveTauntCategory_eq g .advantage hprev]
    simp [deltaEventCategory, rawEventCategory]
    split_ifs <;> first | rfl | omega
  · rw [resolveTauntCategory_eq g e hprev]
    simp only [deltaEventCategory]
    split_ifs <;> first | rfl | omega

/-- C2 witness: the amended theorem at a concrete input. -/
theorem small_gain_escalation_hardcoded_witness :
    ResolveTauntCategory ⟨true, "", 100, 50, 100, 200, 200, 30, 60, 45, 0⟩ .balance
        = .escape
    ∧ ResolveTauntCategory ⟨true, "", 100, 50, 100, 200, 200, 30, 60, 30, 0⟩ .balance
        = rawEventCategory .balance :=
  ⟨((small_gain_escalation_hardcoded ⟨true, "", 100, 50, 100, 200, 200, 30, 60, 45, 0⟩
      .balance (by decide)).1 (by decide) (by decide)).1,
   (small_gain_escalation_hardcoded ⟨true, "", 100, 50, 100, 200, 200, 30, 60, 30, 0⟩
      .balance (by decide)).2 (Or.inl (by decide))⟩

/-! ## C3: the speak gate -/

/-- C3: the speak gate never speaks when disabled or at non-positive
intensity; on a losing-type event with `tauntWhenLosing < 100`, it speaks
only if the first draw is strictly below `tauntWhenLosing` (suppressing
otherwise whatever the intensity); a non-losing event at intensity at
least 100 always speaks; at intensity strictly between 0 and 100, a
non-losing event speaks iff the first draw is strictly below the
intensity, and a losing event that survived the losing draw speaks iff the
second draw is strictly below the intensity. -/
theorem speak_gate_spec (g : Glob) (e : TauntEvent) (r1 r2 : Nat) :
    ((g.useTaunting = false ∨ g.tauntIntensity ≤ 0) → ShouldTauntNow g e r1 r2 = false)
    ∧ (losingEvent e = true → g.tauntWhenLosing < 100 →
        ((r1 % 100 : Nat) : Int) ≥ g.tauntWhenLosing →
        ShouldTauntNow g e r1 r2 = false)
    ∧ (g.useTaunting = true → losingEvent e = false → 100 ≤ g.tauntIntensity →
        ShouldTauntNow g e r1 r2 = true)
    ∧ (g.useTaunting = true → losingEvent e = false → 0 < g.tauntIntensity →
        g.tauntIntensity < 100 →
        (ShouldTauntNow g e r1 r2 = true ↔ ((r1 % 100 : Nat) : Int) < g.tauntIntensity))
    ∧ (g.useTaunting = true → losingEvent e = true → g.tauntWhenLosing < 100 →
        ((r1 % 100 : Nat) : Int) < g.tauntWhenLosing →
        0 < g.tauntIntensity → g.tauntIntensity < 100 →
        (ShouldTauntNow g e r1 r2 = true ↔ ((r2 % 100 : Nat) : Int) < g.tauntIntensity)) := by
  unfold ShouldTauntNow
  refine ⟨fun h => ?_, fun hl hp hr => ?_, fun hu hl hi => ?_,
    fun hu hl h0 hi => ?_, fun hu hl hp hr h0 hi => ?_⟩
  all_goals rcases h' : g.useTaunting with _ | _
  all_goals split_ifs
  all_goals simp_all
  all_goals omega

/-- C3 witness: the gate at concrete inputs, one per clause. -/
theorem speak_gate_spec_witness :
    ShouldTauntNow ⟨false, "", 50, 50, 50, 200, 200, 30, 60, 0, 0⟩ .capture 0 0 = false
    ∧ ShouldTauntNow ⟨true, "", 100, 50, 30, 200, 200, 30, 60, 0, 0⟩ .losing 50 0 = false
    ∧ ShouldTauntNow ⟨true, "", 100, 50, 100, 200, 200, 30, 60, 0, 0⟩ .capture 99 0 = true
    ∧ ShouldTauntNow ⟨true, "", 50, 50, 100, 200, 200, 30, 60, 0, 0⟩ .capture 10 0 = true
    ∧ ShouldTauntNow ⟨true, "", 50, 50, 80, 200, 200, 30, 60, 0, 0⟩ .losing 10 20 = true :=
  ⟨(speak_gate_spec ⟨false, "", 50, 50, 50, 200, 200, 30, 60, 0, 0⟩ .capture 0 0).1
      (Or.inl rfl),
   (speak_gate_spec ⟨true, "", 100, 50, 30, 200, 200, 30, 60, 0, 0⟩ .losing 50 0).2.1
      (by decide) (by decide) (by decide),
   (speak_gate_spec ⟨true, "", 100, 50, 100, 200, 200, 30, 60, 0, 0⟩ .capture 99 0).2.2.1
      (by decide) (by decide) (by decide),
   ((speak_gate_spec ⟨true, "", 50, 50, 100, 200, 200, 30, 60, 0, 0⟩ .capture 10 0).2.2.2.1
      (by decide) (by decide) (by decide) (by decide)).mpr (by decide),
   ((speak_gate_spec ⟨true, "", 50, 50, 80, 200, 200, 30, 60, 0, 0⟩ .losing 10 20).2.2.2.2
      (by decide) (by decide) (by decide) (by decide) (by decide) (by decide)).mpr
      (by decide)⟩

/-! ## C4: the rudeness filter -/

/-- C4: an entry with no rudeness-polarity tag always passes; an entry is
rejected exactly when it carries the blunt (`TAG_RUDE`) bit at rudeness at
most 33 or the courteous (`TAG_POLITE`) bit at rudeness at least 67; at
mid-range rudeness (34-66) every entry passes. -/
theorem rudeness_filter_spec (g : Glob) (e : TauntEntry) :
    (e.tags &&& rudeMask = 0 → PassRudenessFilter g e = true)
    ∧ (PassRudenessFilter g e = false ↔
        ((e.tags &&& TAG_RUDE ≠ 0 ∧ g.tauntRudeness ≤ 33)
          ∨ (e.tags &&& TAG_POLITE ≠ 0 ∧ 67 ≤ g.tauntRudeness)))
    ∧ (34 ≤ g.tauntRudeness → g.tauntRudeness ≤ 66 → PassRudenessFilter g e = true) := by
  have hsplit := land_rude_mask_eq_zero e.tags
  unfold PassRudenessFilter
  refine ⟨fun h => ?_, ?_, fun h34 h66 => ?_⟩
  · rw [if_pos h]
  · split_ifs with h1 h2 h3
    all_goals simp_all
    all_goals omega
  · split_ifs with h1 h2 h3
    all_goals simp_all
    all_goals omega

/-- C4 witness: the filter at concrete inputs — an untagged entry always
passes; a blunt entry is rejected at rudeness 10 and admitted at 50; a
courteous entry is rejected at rudeness 90 and admitted at 50. -/
theorem rudeness_filter_spec_witness :
    PassRudenessFilter ⟨true, "", 50, 10, 50, 200, 200, 30, 60, 0, 0⟩ ⟨"n", 0⟩ = true
    ∧ PassRudenessFilter ⟨true, "", 50, 10, 50, 200, 200, 30, 60, 0, 0⟩ ⟨"r", 1⟩ = false
    ∧ PassRudenessFilter ⟨true, "", 50, 90, 50, 200, 200, 30, 60, 0, 0⟩ ⟨"p", 2⟩ = false
    ∧ PassRudenessFilter ⟨true, "", 50, 50, 50, 200, 200, 30, 60, 0, 0⟩ ⟨"r", 1⟩ = true
    ∧ PassRudenessFilter ⟨true, "", 50, 50, 50, 200, 200, 30, 60, 0, 0⟩ ⟨"p", 2⟩ = true :=
  ⟨(rudeness_filter_spec ⟨true, "", 50, 10, 50, 200, 200, 30, 60, 0, 0⟩ ⟨"n", 0⟩).1
      (by decide),
   (rudeness_filter_spec ⟨true, "", 50, 10, 50, 200, 200, 30, 60, 0, 0⟩ ⟨"r", 1⟩).2.1.mpr
      (Or.inl (by decide)),
   (rudeness_filter_spec ⟨true, "", 50, 90, 50, 200, 200, 30, 60, 0, 0⟩ ⟨"p", 2⟩).2.1.mpr
      (Or.inr (by decide)),
   (rudeness_filter_spec ⟨true, "", 50, 50, 50, 200, 200, 30, 60, 0, 0⟩ ⟨"r", 1⟩).2.2
      (by decide) (by decide),
   (rudeness_filter_spec ⟨true, "", 50, 50, 50, 200, 200, 30, 60, 0, 0⟩ ⟨"p", 2⟩).2.2
      (by decide) (by decide)⟩

/-! ## C5: selection never starves -/

/-- C5: on a non-empty entry list the pool selection draws from is never
empty; when the rudeness filter removes every entry the pool is the full
index range of the unfiltered list; and the emitted line is always the text
of the pool element addressed by the draw, so a non-empty category never
yields silence at selection time. -/
theorem selection_pool_never_empty (g : Glob) (v : List TauntEntry) (r : Nat)
    (hv : v ≠ []) :
    selectionPool g v ≠ []
    ∧ (rudenessCandidates g v = [] → selectionPool g v = List.range v.length)
    ∧ PrintRandomTaunt g v r =
        some ((v.getD ((selectionPool g v).getD (r % (selectionPool g v).length) 0)
          ⟨"", 0⟩).text)
    ∧ PrintRandomTaunt g v r ≠ none := by
  have hvlen : 0 < v.length := List.length_pos.mpr hv
  have hvempty : v.isEmpty = false := by
    cases v with
    | nil => simp at hv
    | cons a l => rfl
  unfold selectionPool PrintRandomTaunt
  rcases hc : (rudenessCandidates g v).isEmpty with _ | _
  · refine ⟨?_, fun h => ?_, ?_, ?_⟩
    · simp [hc]
      exact List.isEmpty_eq_false.mp hc
    · simp [h] at hc
    · simp [hvempty, hc]
    · simp [hvempty, hc]
  · have hcnil : rudenessCandidates g v = [] := List.isEmpty_iff.mp hc
    have hrange : (List.range v.length)[r % v.length]? = some (r % v.length) :=
      List.getElem?_range (Nat.mod_lt r hvlen)
    refine ⟨?_, fun _ => ?_, ?_, ?_⟩
    · rw [if_neg (by simp : ¬(true = false))]
      intro hnil
      rw [List.range_eq_nil] at hnil
      omega
    · simp [hc]
    · simp [hvempty, hc, List.length_range, List.getD_eq_getElem?_getD, hrange]
    · simp [hvempty, hc]

/-- C5 witness: a list whose entries are all rejected by the filter (rude
tags at rudeness 10) still yields an emission, drawn from the full list. -/
theorem selection_pool_never_empty_witness :
    PrintRandomTaunt ⟨true, "", 50, 10, 50, 200, 200, 30, 60, 0, 0⟩
        [⟨"a", 1⟩, ⟨"b", 1⟩] 3 ≠ none :=
  (selection_pool_never_empty ⟨true, "", 50, 10, 50, 200, 200, 30, 60, 0, 0⟩
    [⟨"a", 1⟩, ⟨"b", 1⟩] 3 (by decide)).2.2.2

/-! ## C6: first-event neutrality -/

/-- C6: with no previous score available (the sentinel previous value), the
classifier resolves to general for every raw event type, and the raw event
type cannot influence the outcome. -/
theorem first_event_resolves_general (g : Glob) (e e2 : TauntEvent)
    (h : g.previousValue = 8888) :
    ResolveTauntCategory g e = .general
    ∧ ResolveTauntCategory g e = ResolveTauntCategory g e2 := by
  unfold ResolveTauntCategory
  rw [if_pos h, if_pos h]
  exact ⟨rfl, rfl⟩

/-- C6 witness: a crushing event right after session start resolves to
general. -/
theorem first_event_resolves_general_witness :
    ResolveTauntCategory ⟨true, "", 100, 50, 100, 200, 200, 30, 60, 500, 8888⟩
        .crushing = .general :=
  (first_event_resolves_general ⟨true, "", 100, 50, 100, 200, 200, 30, 60, 500, 8888⟩
    .crushing .capture (by decide)).1

/-! ## C9: the 8888 sentinel -/

/-- C9: "no previous score" is detected by comparing the previous score
with the sentinel 8888: a previous score of exactly 8888 — even as a
genuine evaluation — resolves to general whatever the event, and any other
previous score makes the delta-based rules apply. -/
theorem sentinel_8888_detection (g : Glob) (e : TauntEvent) :
    (g.previousValue = 8888 → ResolveTauntCategory g e = .general)
    ∧ (g.previousValue ≠ 8888 →
        ResolveTauntCategory g e = deltaEventCategory (g.gameValue - g.previousValue) e) := by
  constructor
  · intro h
    unfold ResolveTauntCategory
    rw [if_pos h]
  · intro h
    exact resolveTauntCategory_eq g e h

/-- C9 witness: a genuine evaluation score of exactly 8888 as previous
value forces general even on a crushing event with a huge positive swing,
while previous value 8887 lets the delta rules classify the same swing as a
user blunder. -/
theorem sentinel_8888_detection_witness :
    ResolveTauntCategory ⟨true, "", 100, 50, 100, 200, 200, 30, 60, 9999, 8888⟩
        .crushing = .general
    ∧ ResolveTauntCategory ⟨true, "", 100, 50, 100, 200, 200, 30, 60, 9999, 8887⟩
        .crushing = deltaEventCategory (9999 - 8887) .crushing :=
  ⟨(sentinel_8888_detection ⟨true, "", 100, 50, 100, 200, 200, 30, 60, 9999, 8888⟩
      .crushing).1 (by decide),
   (sentinel_8888_detection ⟨true, "", 100, 50, 100, 200, 200, 30, 60, 9999, 8887⟩
      .crushing).2 (by decide)⟩

/-! ## Loader helper lemmas -/

/-- The section-header branch never touches the entry index. -/
lemma applyHeader_taunts (st : LoaderState) (line : List Char) :
    (applyHeader st line).taunts = st.taunts := by
  unfold applyHeader
  dsimp only
  split_ifs
  · rfl
  · split <;> rfl

/-- A line that is neither a header nor an entry is skipped. -/
lemma processLine_skip (st : LoaderState) (raw : String)
    (hh : isHeaderLine raw = false) (he : isEntryLine raw = false) :
    processLine st raw = st := by
  unfold isHeaderLine at hh
  unfold isEntryLine at he
  unfold processLine
  dsimp only at hh he ⊢
  split_ifs with h1 h2 h3
  · rfl
  · rfl
  · simp_all
  · simp_all

/-- An entry line appends one entry, carrying the active tag set, to the
active section, and changes nothing else. -/
lemma processLine_entry (st : LoaderState) (raw : String)
    (he : isEntryLine raw = true) :
    processLine st raw =
      { st with taunts :=
          pushTaunt st.taunts st.current ⟨⟨trimChars raw.data⟩, st.currentTags⟩ } := by
  unfold isEntryLine at he
  unfold processLine
  dsimp only at he ⊢
  split_ifs with h1 h2 h3
  · simp_all
  · simp_all
  · simp_all
  · rfl

/-- A header line is handed to the section-header branch. -/
lemma processLine_header (st : LoaderState) (raw : String)
    (hh : isHeaderLine raw = true) :
    processLine st raw = applyHeader st (trimChars raw.data) := by
  unfold isHeaderLine at hh
  unfold processLine
  dsimp only at hh ⊢
  split_ifs with h1 h2 h3
  · simp_all
  · simp_all
  · rfl
  · simp_all

/-- An entry line is not a header line. -/
lemma isEntryLine_not_header (raw : String) (he : isEntryLine raw = true) :
    isHeaderLine raw = false := by
  unfold isEntryLine at he
  unfold isHeaderLine
  dsimp only at he ⊢
  simp_all
  tauto

/-- The loader only ever appends to a category's entry list. -/
lemma runLoader_taunts_mono (ls : List String) (st : LoaderState)
    (c : TauntCategory) :
    ∃ tl, (runLoader st ls).taunts c = st.taunts c ++ tl := by
  induction ls generalizing st with
  | nil => exact ⟨[], by simp [runLoader]⟩
  | cons l ls ih =>
    have hstep : runLoader st (l :: ls) = runLoader (processLine st l) ls := rfl
    obtain ⟨tl, htl⟩ := ih (processLine st l)
    rcases hh : isHeaderLine l with _ | _
    · rcases he : isEntryLine l with _ | _
      · rw [hstep, htl, processLine_skip st l hh he]
        exact ⟨tl, rfl⟩
      · rw [hstep, htl, processLine_entry st l he]
        by_cases hcc : c = st.current
        · refine ⟨[⟨⟨trimChars l.data⟩, st.currentTags⟩] ++ tl, ?_⟩
          simp [pushTaunt, hcc]
        · refine ⟨tl, ?_⟩
          simp [pushTaunt, hcc]
    · rw [hstep, htl, processLine_header st l hh]
      rw [applyHeader_taunts]
      exact ⟨tl, rfl⟩

/-- Running the loader over a header-free run of lines keeps the active
section and tag set, and appends to the active section exactly the entry
lines, trimmed and tagged with the active tag set — other sections are
untouched. -/
lemma runLoader_no_header (ls : List String) (st : LoaderState)
    (h : ∀ l ∈ ls, isHeaderLine l = false) :
    (runLoader st ls).current = st.current
    ∧ (runLoader st ls).currentTags = st.currentTags
    ∧ ∀ c, (runLoader st ls).taunts c =
        st.taunts c ++ (if c = st.current then
          (ls.filter (fun l => isEntryLine l)).map
            (fun l => ⟨⟨trimChars l.data⟩, st.currentTags⟩) else []) := by
  induction ls generalizing st with
  | nil => exact ⟨rfl, rfl, fun c => by simp [runLoader]⟩
  | cons l ls ih =>
    have hh : isHeaderLine l = false := h l (List.mem_cons_self l ls)
    have htail : ∀ l' ∈ ls, isHeaderLine l' = false :=
      fun l' hl' => h l' (List.mem_cons_of_mem l hl')
    have hstep : runLoader st (l :: ls) = runLoader (processLine st l) ls := rfl
    rcases he : isEntryLine l with _ | _
    · have hskip := processLine_skip st l hh he
      obtain ⟨ihc, ihd, iht⟩ := ih st htail
      rw [hstep, hskip]
      refine ⟨ihc, ihd, fun c => ?_⟩
      rw [iht c]
      simp [List.filter_cons, he]
    · have hentry := processLine_entry st l he
      obtain ⟨ihc, ihd, iht⟩ := ih
        { st with taunts :=
            pushTaunt st.taunts st.current ⟨⟨trimChars l.data⟩, st.currentTags⟩ }
        htail
      rw [hstep, hentry]
      refine ⟨ihc, ihd, fun c => ?_⟩
      rw [iht c, List.filter_cons]
      unfold pushTaunt
      dsimp only
      by_cases hcc : c = st.current
      · rw [if_pos hcc, if_pos hcc, if_pos hcc, he]
        simp
      · rw [if_neg hcc, if_neg hcc, if_neg hcc]

/-! ## C7: corpus parsing -/

/-- C7: lines before the first section header land in the general category
with the empty tag set (whatever follows); a name outside the closed
category vocabulary resolves to general, so an unknown header opens the
general section; and a header followed only by entry lines yields exactly
those lines as entries, each carrying the header's tag set, in the
header's category and nowhere else. -/
theorem corpus_loader_spec :
    (∀ pre suf : List String, (∀ l ∈ pre, isHeaderLine l = false) →
      ∃ tl, LoadTauntsLines (pre ++ suf) .general =
        (pre.filter (fun l => isEntryLine l)).map
          (fun l => ⟨⟨trimChars l.data⟩, 0⟩) ++ tl)
    ∧ (∀ name, name ∉ categoryNames → CategoryFromName name = .general)
    ∧ (∀ hd rest, isHeaderLine hd = true → (∀ l ∈ rest, isEntryLine l = true) →
        LoadTauntsLines (hd :: rest) ((applyHeader loadInit (trimChars hd.data)).current)
          = rest.map (fun l =>
              ⟨⟨trimChars l.data⟩, (applyHeader loadInit (trimChars hd.data)).currentTags⟩)
        ∧ ∀ c, c ≠ (applyHeader loadInit (trimChars hd.data)).current →
            LoadTauntsLines (hd :: rest) c = []) := by
  refine ⟨fun pre suf hpre => ?_, fun name hname => ?_, fun hd rest hhd hrest => ?_⟩
  · obtain ⟨hc, hd, ht⟩ := runLoader_no_header pre loadInit hpre
    have happ : runLoader loadInit (pre ++ suf) =
        runLoader (runLoader loadInit pre) suf := List.foldl_append ..
    obtain ⟨tl, htl⟩ :=
      runLoader_taunts_mono suf (runLoader loadInit pre) TauntCategory.general
    refine ⟨tl, ?_⟩
    unfold LoadTauntsLines
    rw [happ, htl, ht TauntCategory.general]
    rfl
  · simp only [categoryNames, List.mem_cons, List.mem_singleton, not_or] at hname
    obtain ⟨h1, h2, h3, h4, h5, h6, h7, h8, h9, h10, h11, h12⟩ := hname
    unfold CategoryFromName
    rw [if_neg h1, if_neg h2, if_neg h3, if_neg h4, if_neg h5, if_neg h6, if_neg h7,
      if_neg h8, if_neg h9, if_neg h10, if_neg h11, if_neg h12.1]
  · have hstep : runLoader loadInit (hd :: rest) =
        runLoader (processLine loadInit hd) rest := rfl
    have hhead := processLine_header loadInit hd hhd
    have hrest' : ∀ l ∈ rest, isHeaderLine l = false :=
      fun l hl => isEntryLine_not_header l (hrest l hl)
    obtain ⟨hc, hdt, ht⟩ :=
      runLoader_no_header rest (applyHeader loadInit (trimChars hd.data)) hrest'
    have hfilter : rest.filter (fun l => isEntryLine l) = rest :=
      List.filter_eq_self.mpr (by simpa using hrest)
    constructor
    · unfold LoadTauntsLines
      rw [hstep, hhead, ht, if_pos rfl, applyHeader_taunts, hfilter]
      rfl
    · intro c hcne
      unfold LoadTauntsLines
      rw [hstep, hhead, ht, if_neg hcne, applyHeader_taunts]
      rfl

/-- C7 witness: two plain lines before any header land in general with no
tags; the unknown name "NOPE" maps to general; the header
`[WINNING;RUDE]` followed by three lines yields exactly those three
entries, tagged RUDE, under winning and nothing under capture. -/
theorem corpus_loader_spec_witness :
    (∃ tl, LoadTauntsLines (["hello", "# note"] ++ ["[WINNING;RUDE]", "x"]) .general =
      [⟨"hello", 0⟩] ++ tl)
    ∧ CategoryFromName "NOPE" = .general
    ∧ LoadTauntsLines ["[WINNING;RUDE]", "a", "b", "c"]
        ((applyHeader loadInit (trimChars "[WINNING;RUDE]".data)).current) =
        [⟨"a", 1⟩, ⟨"b", 1⟩, ⟨"c", 1⟩]
    ∧ LoadTauntsLines ["[WINNING;RUDE]", "a", "b", "c"] .capture = [] := by
  refine ⟨?_, ?_, ?_, ?_⟩
  · obtain ⟨tl, htl⟩ := corpus_loader_spec.1 ["hello", "# note"] ["[WINNING;RUDE]", "x"]
      (by decide)
    exact ⟨tl, by rw [htl]; rfl⟩
  · exact corpus_loader_spec.2.1 "NOPE" (by decide)
  · have h := (corpus_loader_spec.2.2 "[WINNING;RUDE]" ["a", "b", "c"]
      (by decide) (by decide)).1
    rw [h]
    rfl
  · exact (corpus_loader_spec.2.2 "[WINNING;RUDE]" ["a", "b", "c"]
      (by decide) (by decide)).2 .capture (by decide)

/-! ## C8: fallback to the default corpus name -/

/-- C8: when a load is due, the configured path (non-empty and distinct
from the default name) fails to open, the loader tries exactly the
configured path and then, once, the default `"taunts.txt"`; if the default
also fails to open, every category ends up empty and selection from any
category of the resulting state emits nothing — no error is surfaced, the
call merely produces a state. -/
theorem loader_fallback_spec (fs : FileSystem) (path : String) (st : TauntState)
    (hopen : fs path = none) (hdiff : path ≠ "taunts.txt") (hne : path ≠ "")
    (hstale : st.s_tauntsLoaded = false ∨ st.s_loadedConfigFile ≠ path) :
    (EnsureTauntsLoaded fs path st).2 = [path, "taunts.txt"]
    ∧ (fs "taunts.txt" = none →
        (∀ c, (EnsureTauntsLoaded fs path st).1.s_taunts c = [])
        ∧ ∀ g r c, PrintRandomTaunt g ((EnsureTauntsLoaded fs path st).1.s_taunts c) r
            = none) := by
  have hcond : ¬(st.s_tauntsLoaded = true ∧ st.s_loadedConfigFile = path) := by
    rcases hstale with h | h <;> simp [h]
  have hdata : path.data.isEmpty = false := by
    rcases hd : path.data with _ | _
    · exact absurd (String.ext (hd.trans rfl)) hne
    · rfl
  unfold EnsureTauntsLoaded
  rw [if_neg hcond]
  simp only [hdata, Bool.false_eq_true, if_false]
  unfold LoadTauntsFile
  rw [hopen]
  rw [if_pos hdiff]
  cases hdef : fs "taunts.txt" with
  | none => exact ⟨rfl, fun _ => ⟨fun c => rfl, fun g r c => rfl⟩⟩
  | some ls => exact ⟨rfl, fun hnone => Option.noConfusion hnone⟩

/-- C8 witness: a file system with no readable file at all, a configured
path "custom.txt": the attempts are exactly the configured then the
default name, the index is empty everywhere, and emission is a no-op. -/
theorem loader_fallback_spec_witness :
    (EnsureTauntsLoaded (fun _ => none) "custom.txt" ⟨emptyIndex, false, ""⟩).2 =
      ["custom.txt", "taunts.txt"]
    ∧ (EnsureTauntsLoaded (fun _ => none) "custom.txt"
        ⟨emptyIndex, false, ""⟩).1.s_taunts .general = []
    ∧ PrintRandomTaunt ⟨true, "custom.txt", 100, 50, 100, 200, 200, 30, 60, 0, 0⟩
        ((EnsureTauntsLoaded (fun _ => none) "custom.txt"
          ⟨emptyIndex, false, ""⟩).1.s_taunts .general) 5 = none := by
  have h := loader_fallback_spec (fun _ => none) "custom.txt" ⟨emptyIndex, false, ""⟩
    rfl (by decide) (by decide) (Or.inl rfl)
  exact ⟨h.1, (h.2 rfl).1 .general,
    (h.2 rfl).2 ⟨true, "custom.txt", 100, 50, 100, 200, 200, 30, 60, 0, 0⟩ 5 .general⟩

/-- Whenever the lazy loader actually reloads, the resulting state carries
some freshly built index, the loaded flag set and the configured path
recorded — regardless of how the file opens went. -/
lemma ensureTauntsLoaded_fresh (fs : FileSystem) (path : String) (st : TauntState)
    (h1 : ¬(st.s_tauntsLoaded = true ∧ st.s_loadedConfigFile = path)) :
    ∃ idx atts, EnsureTauntsLoaded fs path st = (⟨idx, true, path⟩, atts) := by
  unfold EnsureTauntsLoaded
  rw [if_neg h1]
  dsimp only
  generalize (if path.data.isEmpty = true then "taunts.txt" else path) = req
  cases LoadTauntsFile fs req with
  | some idx => exact ⟨idx, _, rfl⟩
  | none =>
    split_ifs with h2
    · cases LoadTauntsFile fs "taunts.txt" with
      | some idx2 => exact ⟨idx2, _, rfl⟩
      | none => exact ⟨emptyIndex, _, rfl⟩
    · exact ⟨emptyIndex, _, rfl⟩

/-! ## C10: the loaded latch -/

/-- C10: any call to the lazy loader leaves the loaded flag set and the
configured path recorded — whatever happened to the file opens — and an
immediately repeated call with the unchanged configured path returns the
state unchanged and opens no file at all. -/
theorem lazy_loader_latch (fs : FileSystem) (path : String) (st : TauntState) :
    (EnsureTauntsLoaded fs path st).1.s_tauntsLoaded = true
    ∧ (EnsureTauntsLoaded fs path st).1.s_loadedConfigFile = path
    ∧ EnsureTauntsLoaded fs path (EnsureTauntsLoaded fs path st).1 =
        ((EnsureTauntsLoaded fs path st).1, []) := by
  by_cases h1 : st.s_tauntsLoaded = true ∧ st.s_loadedConfigFile = path
  · have heq : EnsureTauntsLoaded fs path st = (st, []) := by
      unfold EnsureTauntsLoaded
      rw [if_pos h1]
    rw [heq]
    exact ⟨h1.1, h1.2, heq⟩
  · obtain ⟨idx, atts, heq⟩ := ensureTauntsLoaded_fresh fs path st h1
    rw [heq]
    refine ⟨rfl, rfl, ?_⟩
    unfold EnsureTauntsLoaded
    rw [if_pos ⟨rfl, rfl⟩]

end PizzaRat
